import Mathlib

/-!
Shallow embedding of the systools repository's rate-limited batch
resolution pipeline, covering the price-checker page
(`src/app/page.tsx`) and the wishlist-checker page
(`src/app/wishlist-checker/page.tsx`).

JavaScript strings are modelled by Lean `String`, but the JS string
primitives used by the code (`toLowerCase`, `trim`, `includes`,
`split("\n")`, `join`) are re-implemented structurally on the
underlying character list so that all definitions evaluate inside the
kernel.  JS numbers that hold prices are modelled by `ℚ` (the pricing
API serves decimal strings); a payload price field is `Option ℚ`,
where `none` models the field being `null`, absent, or otherwise falsy
or non-numeric, exactly the cases collapsed to `null` by the
`x ? Number.parseFloat(x) : null` pattern in the source.
-/

namespace Systools

/-- Record status, the four-valued enum used by both pages
(`"pending" | "found" | "not-found" | "error"` in the source). -/
inductive Status where
  | pending
  | found
  | notFound
  | error
deriving DecidableEq, Repr

/-- JS `String.prototype.toLowerCase`, modelled characterwise. -/
def jsToLower (s : String) : String :=
  ⟨s.data.map Char.toLower⟩

/-- JS whitespace test for `trim` (space, tab, newline, carriage return). -/
def jsIsWs (c : Char) : Bool :=
  c == ' ' || c == '\t' || c == '\n' || c == '\r'

/-- JS `String.prototype.trim`: drop leading and trailing whitespace. -/
def jsTrim (s : String) : String :=
  ⟨((s.data.dropWhile jsIsWs).reverse.dropWhile jsIsWs).reverse⟩

/-- Helper for `jsIncludes`: does the second list occur at the head of the
first? -/
def jsStartsWith : List Char → List Char → Bool
  | _, [] => true
  | [], _ :: _ => false
  | c :: s, p :: ps => c == p && jsStartsWith s ps

/-- Helper for `jsIncludes`: does `pat` occur anywhere inside `s`? -/
def jsIncludesAux : List Char → List Char → Bool
  | [], pat => pat.isEmpty
  | c :: s, pat => jsStartsWith (c :: s) pat || jsIncludesAux s pat

/-- JS `String.prototype.includes`: substring containment. -/
def jsIncludes (s pat : String) : Bool :=
  jsIncludesAux s.data pat.data

/-- Helper for `jsSplitLines`: split a character list at newlines,
keeping empty pieces, as JS `split("\n")` does. -/
def jsSplitLinesAux : List Char → List Char → List String
  | [], acc => [⟨acc.reverse⟩]
  | c :: rest, acc =>
      if c == '\n' then ⟨acc.reverse⟩ :: jsSplitLinesAux rest []
      else jsSplitLinesAux rest (c :: acc)

/-- JS `s.split("\n")`. -/
def jsSplitLines (s : String) : List String :=
  jsSplitLinesAux s.data []

/-- JS `Array.prototype.join(sep)` on a list of strings. -/
def jsJoin (sep : String) : List String → String
  | [] => ""
  | [x] => x
  | x :: y :: rest => x ++ sep ++ jsJoin sep (y :: rest)

/-- JS `o || d` on an optional string, where `null`, `undefined` and `""`
are falsy. -/
def jsStrOr (o : Option String) (d : String) : String :=
  match o with
  | some s => if s = "" then d else s
  | none => d

/-- JS `toString` on a natural number. -/
def jsNatStr (n : Nat) : String :=
  toString n

/-- One CSV line: the cells, each wrapped in double quotes, joined by
commas (the `row.map(cell => ...).join(",")` step shared by both
`generateCSV` functions). -/
def csvLine (cells : List String) : String :=
  jsJoin "," (cells.map (fun cell => "\"" ++ cell ++ "\""))

end Systools

namespace Systools.PriceChecker

open Systools

/-- The fields of a mapping-service item actually consumed by
`startProcessing` in `src/app/page.tsx` (`name` and `foreign_id`; the
remaining fields of the TS `MappedItem` interface are never read by the
pipeline). -/
structure MappedItem where
  name : String
  foreign_id : Nat
deriving DecidableEq

/-- Response of the remote name-mapping service (`MapApiResponse` in
`src/app/page.tsx`). -/
structure MapApiResponse where
  items : List MappedItem
  failedToMap : List String
deriving DecidableEq

/-- Price fields of one priced item in a pricing-API response
(`prices` in the TS `GGDealsResponse`).  `none` models a `null`, absent
or non-numeric field, the cases the source collapses to `null`. -/
structure PriceInfo where
  currentRetail : Option ℚ
  currentKeyshops : Option ℚ
  currency : String
deriving DecidableEq

/-- A pricing-API payload (`GGDealsResponse` in `src/app/page.tsx`): a
success flag and a finite map from app id to priced data, where a key
mapped to `none` models the explicit `null` entry, and a missing key
models an absent entry (the source treats both as "no priced data"). -/
structure GGDealsResponse where
  success : Bool
  data : List (Nat × Option PriceInfo)
deriving DecidableEq

/-- A per-game result row (`GamePrice` in `src/app/page.tsx`). -/
structure GamePrice where
  name : String
  appId : Nat
  price : Option String
  currency : String
  tradingCards : Option Nat
  status : Status
deriving DecidableEq

/-- JS `tradingCardsData[id] || null`: a lookup in the trading-cards
table followed by `|| null`, which also nulls out a stored `0`. -/
def tcLookup (tcd : Nat → Option Nat) (id : Nat) : Option Nat :=
  match tcd id with
  | some n => if n = 0 then none else some n
  | none => none

/-- The cheapest-price selection of `fetchPricesFromQueue`
(`src/app/page.tsx` lines 158-167): `Math.min` when both prices are
non-null, the single non-null one otherwise, `null` when both are null.
-/
def cheapestOf (retail keyshops : Option ℚ) : Option ℚ :=
  match retail, keyshops with
  | some r, some k => some (min r k)
  | some r, none => some r
  | none, some k => some k
  | none, none => none

/-- JS `Number.prototype.toFixed(2)` on an exact rational: round to the
nearest integer number of cents (ties up, as the ECMA-262 `toFixed`
algorithm picks the larger candidate) and print with two decimals.
Written with integer operations on `num`/`den`:
`⌊q·100 + 1/2⌋ = fdiv (q.num·200 + q.den) (q.den·2)`. -/
def toFixed2 (q : ℚ) : String :=
  let cents : Int := Int.fdiv (q.num * 200 + (q.den : Int)) ((q.den : Int) * 2)
  let sign := if cents < 0 then "-" else ""
  let n := cents.natAbs
  sign ++ jsNatStr (n / 100) ++ "." ++
    (if n % 100 < 10 then "0" else "") ++ jsNatStr (n % 100)

/-- The per-record update applied by `fetchPricesFromQueue` for a
successful chunk response (`src/app/page.tsx` lines 144-185): records
whose `appId` is in the batch are marked `found` with the cheapest
price (or `not-found` when the payload has no priced data for them);
all other records are returned unchanged. -/
def updateGameFromData (tcd : Nat → Option Nat) (data : List (Nat × Option PriceInfo))
    (batch : List Nat) (game : GamePrice) : GamePrice :=
  if batch.contains game.appId then
    match (data.lookup game.appId).join with
    | some priceData =>
        let cheapestPrice := cheapestOf priceData.currentRetail priceData.currentKeyshops
        { game with
            price := cheapestPrice.map toFixed2
            currency := priceData.currency
            tradingCards := tcLookup tcd game.appId
            status := .found }
    | none =>
        { game with
            tradingCards := tcLookup tcd game.appId
            status := .notFound }
  else game

/-- One iteration body of the drain loop of `fetchPricesFromQueue`
(`src/app/page.tsx` lines 130-194): `resp = none` models a thrown
network error or non-ok HTTP status; a payload with `success = false`
is thrown as well; both mark every record of the batch as `error`.
Otherwise the successful-response update is applied. -/
def processChunk (tcd : Nat → Option Nat) (resp : Option GGDealsResponse)
    (batch : List Nat) (games : List GamePrice) : List GamePrice :=
  match resp with
  | some data =>
      if data.success then
        games.map (updateGameFromData tcd data.data batch)
      else
        games.map (fun game =>
          if batch.contains game.appId then { game with status := .error } else game)
  | none =>
      games.map (fun game =>
        if batch.contains game.appId then { game with status := .error } else game)

/-- Observable events of one drain loop: a pricing request carrying a
batch of ids, or the fixed inter-chunk wait (in seconds). -/
inductive DrainEvent where
  | request (batch : List Nat)
  | wait (seconds : Nat)
deriving DecidableEq, Repr

/-- The chunks successively spliced off the queue by the drain loop
(`queueRef.current.splice(0, 100)` on `src/app/page.tsx` line 128). -/
def chunked (queue : List Nat) : List (List Nat) :=
  if queue = [] then []
  else queue.take 100 :: chunked (queue.drop 100)
termination_by queue.length
decreasing_by
  rename_i h
  have hpos : 0 < queue.length := List.length_pos.mpr h
  simp only [List.length_drop]
  omega

/-- The drain loop of `fetchPricesFromQueue` (`src/app/page.tsx` lines
127-212) on an un-cancelled run: while the queue is non-empty, splice
off up to 100 ids, issue one pricing request for them and fold its
outcome into the results, then wait 60 seconds if items remain.
Returns the final results together with the emitted event trace.
`fetch batch` is the outcome of the chunk's network call. -/
def fetchPricesFromQueue (tcd : Nat → Option Nat)
    (fetch : List Nat → Option GGDealsResponse)
    (queue : List Nat) (games : List GamePrice) : List GamePrice × List DrainEvent :=
  if queue = [] then (games, [])
  else
    let batch := queue.take 100
    let rest := queue.drop 100
    let updated := processChunk tcd (fetch batch) batch games
    let tail := fetchPricesFromQueue tcd fetch rest updated
    (tail.1,
      DrainEvent.request batch ::
        ((if rest = [] then [] else [DrainEvent.wait 60]) ++ tail.2))
termination_by queue.length
decreasing_by
  rename_i h
  have hpos : 0 < queue.length := List.length_pos.mpr h
  simp only [List.length_drop]
  omega

/-- Folding the per-chunk update over an explicit chunk list: the
functional core of the drain loop, used to talk about the intermediate
states of a run. -/
def runFold (tcd : Nat → Option Nat) (fetch : List Nat → Option GGDealsResponse)
    (chunks : List (List Nat)) (games : List GamePrice) : List GamePrice :=
  chunks.foldl (fun gs c => processChunk tcd (fetch c) c gs) games

/-- The results list after the first `i` chunks of a run have been
processed. -/
def stateAt (tcd : Nat → Option Nat) (fetch : List Nat → Option GGDealsResponse)
    (chunks : List (List Nat)) (games : List GamePrice) (i : Nat) : List GamePrice :=
  runFold tcd fetch (chunks.take i) games

/-- Projection of a request event to its batch. -/
def reqOf : DrainEvent → Option (List Nat)
  | .request batch => some batch
  | .wait _ => none

/-- The line parsing of `startProcessing` (`src/app/page.tsx` lines
232-235): split on newlines, keep lines with non-blank content, trim
each kept line. -/
def parseNames (gameNames : String) : List String :=
  ((jsSplitLines gameNames).filter (fun name => !(jsTrim name).isEmpty)).map
    (fun name => jsTrim name)

/-- The result-record construction of `startProcessing`
(`src/app/page.tsx` lines 240-272): one `pending` record per mapped
item (whose `foreign_id` is also pushed onto the queue, in order),
followed by one `not-found` record with `appId = 0` per failed name.
Returns the records together with the queue contents. -/
def buildResults (tcd : Nat → Option Nat) (mappingResult : MapApiResponse) :
    List GamePrice × List Nat :=
  (mappingResult.items.map (fun item =>
      { name := item.name
        appId := item.foreign_id
        price := none
        currency := "USD"
        tradingCards := tcLookup tcd item.foreign_id
        status := .pending })
    ++ mappingResult.failedToMap.map (fun name =>
      { name := name
        appId := 0
        price := none
        currency := "USD"
        tradingCards := none
        status := .notFound }),
   mappingResult.items.map (fun item => item.foreign_id))

/-- The literal status strings rendered into the CSV (`game.status` is
the raw enum string in the source). -/
def statusText : Status → String
  | .pending => "pending"
  | .found => "found"
  | .notFound => "not-found"
  | .error => "error"

/-- CSV generation of the price-checker page (`generateCSV` in
`src/app/page.tsx` lines 288-301). -/
def generateCSV (gameResults : List GamePrice) : String :=
  let headers := ["Game Name", "Price", "Currency", "Trading Cards", "Status"]
  let rows := gameResults.map (fun game =>
    [game.name,
     jsStrOr game.price "N/A",
     game.currency,
     jsStrOr (game.tradingCards.map jsNatStr) "",
     statusText game.status])
  jsJoin "\n" ((headers :: rows).map (fun row =>
    jsJoin "," (row.map (fun cell => "\"" ++ cell ++ "\""))))

/-- Pointwise form of one drain-loop iteration: the function applied by
`processChunk` to each record of the results list. -/
def chunkStep (tcd : Nat → Option Nat) (resp : Option GGDealsResponse)
    (batch : List Nat) (game : GamePrice) : GamePrice :=
  match resp with
  | some data =>
      if data.success then updateGameFromData tcd data.data batch game
      else if batch.contains game.appId then { game with status := .error } else game
  | none =>
      if batch.contains game.appId then { game with status := .error } else game

/-- The effect of a whole run on a single record: fold the per-chunk
step over the chunk list. -/
def perRecord (tcd : Nat → Option Nat) (fetch : List Nat → Option GGDealsResponse)
    (chunks : List (List Nat)) (game : GamePrice) : GamePrice :=
  chunks.foldl (fun g c => chunkStep tcd (fetch c) c g) game

end Systools.PriceChecker

namespace Systools.WishlistChecker

open Systools

/-- A catalog entry of the bulk-loaded storefront app list (`SteamApp`
in `src/app/wishlist-checker/page.tsx`). -/
structure SteamApp where
  appid : Nat
  name : String
deriving DecidableEq

/-- One wishlist entry (`WishlistItem` in
`src/app/wishlist-checker/page.tsx`). -/
structure WishlistItem where
  appid : Nat
  priority : Nat
  date_added : Nat
deriving DecidableEq

/-- A per-game result row (`GameWishlistStatus` in
`src/app/wishlist-checker/page.tsx`). -/
structure GameWishlistStatus where
  name : String
  appId : Nat
  isWishlisted : Bool
  dateAdded : Option String
  priority : Option Nat
  status : Status
deriving DecidableEq

/-- The local name resolver (`findAppId` in
`src/app/wishlist-checker/page.tsx` lines 71-83): normalize the input
by lower-casing and trimming, try exact equality against the
lower-cased catalog names, then fall back to the first entry related to
the input by substring containment in either direction.  The fallback
result goes through JS `partialApp?.appid || null`, so a fallback hit
whose `appid` is `0` yields `null`. -/
def findAppId (steamApps : List SteamApp) (gameName : String) : Option Nat :=
  let normalizedName := jsTrim (jsToLower gameName)
  match steamApps.find? (fun app => jsToLower app.name == normalizedName) with
  | some exactMatch => some exactMatch.appid
  | none =>
      match steamApps.find? (fun app =>
          jsIncludes (jsToLower app.name) normalizedName ||
          jsIncludes normalizedName (jsToLower app.name)) with
      | some fuzzyMatch => if fuzzyMatch.appid = 0 then none else some fuzzyMatch.appid
      | none => none

/-- The resolver as the specification describes it: the id of the first
exact lower-cased match, otherwise the id of the first catalog entry
related to the normalized name by substring containment in either
direction, otherwise unresolved.  Kept separate from `findAppId` to
compare the code against the claim. -/
def resolveSpec (steamApps : List SteamApp) (gameName : String) : Option Nat :=
  let normalizedName := jsTrim (jsToLower gameName)
  match steamApps.find? (fun app => jsToLower app.name == normalizedName) with
  | some exactMatch => some exactMatch.appid
  | none =>
      (steamApps.find? (fun app =>
          jsIncludes (jsToLower app.name) normalizedName ||
          jsIncludes normalizedName (jsToLower app.name))).map
        (fun app => app.appid)

/-- The line parsing of the wishlist checker's `startProcessing`
(`src/app/wishlist-checker/page.tsx` line 126): split on newlines and
keep lines with non-blank content (each line is trimmed at its use
sites). -/
def parseLines (gameNames : String) : List String :=
  (jsSplitLines gameNames).filter (fun name => !(jsTrim name).isEmpty)

/-- The initial record construction of the wishlist checker's
`startProcessing` (`src/app/wishlist-checker/page.tsx` lines 129-139):
one record per non-blank line, with `appId || 0` stored and status
`pending` exactly when the resolved id is JS-truthy (non-null and
non-zero). -/
def initialResults (steamApps : List SteamApp) (names : List String) :
    List GameWishlistStatus :=
  names.map (fun name =>
    let appId := findAppId steamApps (jsTrim name)
    { name := jsTrim name
      appId := match appId with | some i => i | none => 0
      isWishlisted := false
      dateAdded := none
      priority := none
      status := match appId with
        | some i => if i = 0 then .notFound else .pending
        | none => .notFound })

/-- The wishlist merge of `startProcessing`
(`src/app/wishlist-checker/page.tsx` lines 148-164), applied after a
successful wishlist fetch. `formatDate` abstracts the locale-dependent
date rendering of the source.  A record with JS-truthy `appId` that is
on the wishlist is marked wishlisted and `found` (with
`wishlistItem?.priority || null`, nulling a zero priority); a record
with JS-truthy `appId` not on the wishlist is marked `found` only; a
record with `appId = 0` is returned unchanged. -/
def updateWishlist (formatDate : Nat → String) (wishlistItems : List WishlistItem)
    (games : List GameWishlistStatus) : List GameWishlistStatus :=
  games.map (fun game =>
    if game.appId != 0 && (wishlistItems.map (fun item => item.appid)).contains game.appId then
      match wishlistItems.find? (fun item => item.appid == game.appId) with
      | some wishlistItem =>
          { game with
              isWishlisted := true
              dateAdded := some (formatDate wishlistItem.date_added)
              priority := if wishlistItem.priority = 0 then none else some wishlistItem.priority
              status := .found }
      | none =>
          { game with
              isWishlisted := true
              dateAdded := none
              priority := none
              status := .found }
    else if game.appId != 0 then
      { game with status := .found }
    else game)

/-- A full successful run of the wishlist checker's `startProcessing`:
build the initial records from the input lines, then merge the fetched
wishlist. -/
def startProcessingResult (formatDate : Nat → String) (steamApps : List SteamApp)
    (gameNames : String) (wishlistItems : List WishlistItem) : List GameWishlistStatus :=
  updateWishlist formatDate wishlistItems (initialResults steamApps (parseLines gameNames))

/-- CSV generation of the wishlist-checker page (`generateCSV` in
`src/app/wishlist-checker/page.tsx` lines 173-186). -/
def generateCSV (gameResults : List GameWishlistStatus) : String :=
  let headers := ["Game Name", "On Wishlist", "Date Added", "Priority", "Status"]
  let rows := gameResults.map (fun game =>
    [game.name,
     if game.isWishlisted then "Yes" else "No",
     jsStrOr game.dateAdded "N/A",
     jsStrOr (game.priority.map jsNatStr) "N/A",
     PriceChecker.statusText game.status])
  jsJoin "\n" ((headers :: rows).map (fun row =>
    jsJoin "," (row.map (fun cell => "\"" ++ cell ++ "\""))))

end Systools.WishlistChecker

namespace Systools.PriceChecker

theorem chunked_nil : chunked [] = [] := by
  rw [chunked]
  simp

theorem chunked_cons {queue : List Nat} (h : queue ≠ []) :
    chunked queue = queue.take 100 :: chunked (queue.drop 100) := by
  rw [chunked]
  simp [h]

theorem fetchPricesFromQueue_nil (tcd : Nat → Option Nat)
    (fetch : List Nat → Option GGDealsResponse) (games : List GamePrice) :
    fetchPricesFromQueue tcd fetch [] games = (games, []) := by
  rw [fetchPricesFromQueue]
  simp

theorem fetchPricesFromQueue_cons (tcd : Nat → Option Nat)
    (fetch : List Nat → Option GGDealsResponse) {queue : List Nat}
    (games : List GamePrice) (h : queue ≠ []) :
    fetchPricesFromQueue tcd fetch queue games =
      ((fetchPricesFromQueue tcd fetch (queue.drop 100)
          (processChunk tcd (fetch (queue.take 100)) (queue.take 100) games)).1,
        DrainEvent.request (queue.take 100) ::
          ((if queue.drop 100 = [] then [] else [DrainEvent.wait 60]) ++
            (fetchPricesFromQueue tcd fetch (queue.drop 100)
              (processChunk tcd (fetch (queue.take 100)) (queue.take 100) games)).2)) := by
  conv_lhs => rw [fetchPricesFromQueue]
  simp [h]

theorem chunked_length (queue : List Nat) :
    (chunked queue).length = (queue.length + 99) / 100 := by
  induction queue using chunked.induct with
  | case1 => simp [chunked_nil]
  | case2 queue h ih =>
      rw [chunked_cons h]
      have hpos : 0 < queue.length := List.length_pos.mpr h
      rw [List.length_cons, ih, List.length_drop]
      omega

theorem chunked_flatten (queue : List Nat) : (chunked queue).flatten = queue := by
  induction queue using chunked.induct with
  | case1 => simp [chunked_nil]
  | case2 queue h ih =>
      rw [chunked_cons h]
      simp [ih]

theorem chunked_bounded (queue : List Nat) :
    (chunked queue).all (fun c => decide (c.length ≤ 100) && !c.isEmpty) = true := by
  induction queue using chunked.induct with
  | case1 => simp [chunked_nil]
  | case2 queue h ih =>
      rw [chunked_cons h]
      simp only [List.all_cons, ih, Bool.and_true]
      rw [Bool.and_eq_true, decide_eq_true_iff]
      refine ⟨?_, ?_⟩
      · rw [List.length_take]
        exact Nat.min_le_left _ _
      · simp [List.isEmpty_iff, List.take_eq_nil_iff, h]

theorem processChunk_eq_map (tcd : Nat → Option Nat) (resp : Option GGDealsResponse)
    (batch : List Nat) (games : List GamePrice) :
    processChunk tcd resp batch games = games.map (chunkStep tcd resp batch) := by
  cases resp with
  | none => rfl
  | some data =>
      by_cases hs : data.success <;>
        simp [processChunk, chunkStep, hs]

theorem chunkStep_appId (tcd : Nat → Option Nat) (resp : Option GGDealsResponse)
    (batch : List Nat) (game : GamePrice) :
    (chunkStep tcd resp batch game).appId = game.appId := by
  cases resp with
  | none =>
      simp only [chunkStep]
      split <;> rfl
  | some data =>
      simp only [chunkStep]
      split
      · simp only [updateGameFromData]
        split
        · split <;> rfl
        · rfl
      · split <;> rfl

theorem chunkStep_of_not_mem (tcd : Nat → Option Nat) (resp : Option GGDealsResponse)
    {batch : List Nat} {game : GamePrice} (h : batch.contains game.appId = false) :
    chunkStep tcd resp batch game = game := by
  cases resp with
  | none =>
      simp only [chunkStep, h, Bool.false_eq_true, if_false]
  | some data =>
      simp only [chunkStep]
      split
      · simp only [updateGameFromData, h, Bool.false_eq_true, if_false]
      · simp only [h, Bool.false_eq_true, if_false]

theorem chunkStep_status_of_mem (tcd : Nat → Option Nat) (resp : Option GGDealsResponse)
    {batch : List Nat} {game : GamePrice} (h : batch.contains game.appId = true) :
    (chunkStep tcd resp batch game).status ≠ Status.pending := by
  cases resp with
  | none =>
      simp only [chunkStep, h, if_true]
      simp
  | some data =>
      simp only [chunkStep]
      split
      · simp only [updateGameFromData, h, if_true]
        split <;> simp
      · simp only [h, if_true]
        simp

theorem chunkStep_cases (tcd : Nat → Option Nat) (resp : Option GGDealsResponse)
    (batch : List Nat) (game : GamePrice) :
    chunkStep tcd resp batch game = game ∨
      ((chunkStep tcd resp batch game).status ≠ Status.pending ∧
        batch.contains game.appId = true) := by
  cases hB : batch.contains game.appId with
  | false => exact Or.inl (chunkStep_of_not_mem tcd resp hB)
  | true => exact Or.inr ⟨chunkStep_status_of_mem tcd resp hB, rfl⟩

theorem runFold_eq_map (tcd : Nat → Option Nat) (fetch : List Nat → Option GGDealsResponse)
    (chunks : List (List Nat)) (games : List GamePrice) :
    runFold tcd fetch chunks games = games.map (perRecord tcd fetch chunks) := by
  induction chunks generalizing games with
  | nil =>
      show games = games.map (perRecord tcd fetch [])
      have hid : games.map (perRecord tcd fetch []) = games.map (fun g => g) := rfl
      rw [hid, List.map_id']
  | cons c cs ih =>
      show runFold tcd fetch cs (processChunk tcd (fetch c) c games) = _
      rw [ih, processChunk_eq_map, List.map_map]
      rfl

theorem perRecord_appId (tcd : Nat → Option Nat) (fetch : List Nat → Option GGDealsResponse)
    (chunks : List (List Nat)) (game : GamePrice) :
    (perRecord tcd fetch chunks game).appId = game.appId := by
  induction chunks generalizing game with
  | nil => rfl
  | cons c cs ih =>
      show (perRecord tcd fetch cs (chunkStep tcd (fetch c) c game)).appId = _
      rw [ih, chunkStep_appId]

theorem perRecord_nonpending (tcd : Nat → Option Nat)
    (fetch : List Nat → Option GGDealsResponse) (chunks : List (List Nat))
    {game : GamePrice} (h : game.status ≠ Status.pending) :
    (perRecord tcd fetch chunks game).status ≠ Status.pending := by
  induction chunks generalizing game with
  | nil => exact h
  | cons c cs ih =>
      show (perRecord tcd fetch cs (chunkStep tcd (fetch c) c game)).status ≠ _
      rcases chunkStep_cases tcd (fetch c) c game with heq | ⟨hst, _⟩
      · rw [heq]
        exact ih h
      · exact ih hst

theorem perRecord_cases (tcd : Nat → Option Nat)
    (fetch : List Nat → Option GGDealsResponse) (chunks : List (List Nat))
    (game : GamePrice) :
    perRecord tcd fetch chunks game = game ∨
      ((perRecord tcd fetch chunks game).status ≠ Status.pending ∧
        chunks.any (fun c => c.contains game.appId) = true) := by
  induction chunks generalizing game with
  | nil => exact Or.inl rfl
  | cons c cs ih =>
      have hstep : perRecord tcd fetch (c :: cs) game =
          perRecord tcd fetch cs (chunkStep tcd (fetch c) c game) := rfl
      rcases chunkStep_cases tcd (fetch c) c game with heq | ⟨hst, hmem⟩
      · rw [hstep, heq]
        rcases ih game with h1 | ⟨h1, h2⟩
        · exact Or.inl h1
        · refine Or.inr ⟨h1, ?_⟩
          rw [List.any_cons, h2, Bool.or_true]
      · refine Or.inr ⟨?_, ?_⟩
        · rw [hstep]
          exact perRecord_nonpending tcd fetch cs hst
        · rw [List.any_cons, hmem, Bool.true_or]

theorem perRecord_untouched (tcd : Nat → Option Nat)
    (fetch : List Nat → Option GGDealsResponse) (chunks : List (List Nat))
    {game : GamePrice} (h : chunks.any (fun c => c.contains game.appId) = false) :
    perRecord tcd fetch chunks game = game := by
  induction chunks generalizing game with
  | nil => rfl
  | cons c cs ih =>
      rw [List.any_cons, Bool.or_eq_false_iff] at h
      have hstep : perRecord tcd fetch (c :: cs) game =
          perRecord tcd fetch cs (chunkStep tcd (fetch c) c game) := rfl
      rw [hstep, chunkStep_of_not_mem tcd (fetch c) h.1]
      exact ih h.2

theorem fetch_fst_eq_runFold (tcd : Nat → Option Nat)
    (fetch : List Nat → Option GGDealsResponse) (queue : List Nat)
    (games : List GamePrice) :
    (fetchPricesFromQueue tcd fetch queue games).1 =
      runFold tcd fetch (chunked queue) games := by
  induction queue using chunked.induct generalizing games with
  | case1 =>
      rw [fetchPricesFromQueue_nil, chunked_nil]
      rfl
  | case2 queue h ih =>
      rw [fetchPricesFromQueue_cons tcd fetch games h, chunked_cons h]
      exact ih _

theorem fetch_snd_events (tcd : Nat → Option Nat)
    (fetch : List Nat → Option GGDealsResponse) (queue : List Nat)
    (games : List GamePrice) :
    (fetchPricesFromQueue tcd fetch queue games).2 =
      List.intersperse (DrainEvent.wait 60) ((chunked queue).map DrainEvent.request) := by
  induction queue using chunked.induct generalizing games with
  | case1 =>
      rw [fetchPricesFromQueue_nil, chunked_nil]
      rfl
  | case2 queue h ih =>
      rw [fetchPricesFromQueue_cons tcd fetch games h, chunked_cons h]
      by_cases h2 : queue.drop 100 = []
      · rw [h2]
        simp [fetchPricesFromQueue_nil, chunked_nil]
      · rw [if_neg h2, ih, chunked_cons h2]
        simp only [List.map_cons, List.intersperse_cons_cons, List.singleton_append]

theorem filterMap_reqOf_intersperse (chunks : List (List Nat)) :
    (List.intersperse (DrainEvent.wait 60) (chunks.map DrainEvent.request)).filterMap
      reqOf = chunks := by
  induction chunks with
  | nil => rfl
  | cons c cs ih =>
      cases cs with
      | nil => rfl
      | cons d ds =>
          rw [List.map_cons, List.map_cons, List.intersperse_cons_cons,
            List.filterMap_cons, List.filterMap_cons]
          rw [List.map_cons] at ih
          simp only [reqOf, ih]

theorem fetch_requests (tcd : Nat → Option Nat)
    (fetch : List Nat → Option GGDealsResponse) (queue : List Nat)
    (games : List GamePrice) :
    (fetchPricesFromQueue tcd fetch queue games).2.filterMap reqOf = chunked queue := by
  rw [fetch_snd_events, filterMap_reqOf_intersperse]

theorem stateAt_final (tcd : Nat → Option Nat)
    (fetch : List Nat → Option GGDealsResponse) (queue : List Nat)
    (games : List GamePrice) :
    stateAt tcd fetch (chunked queue) games (chunked queue).length =
      (fetchPricesFromQueue tcd fetch queue games).1 := by
  rw [fetch_fst_eq_runFold, stateAt, List.take_length]

theorem perRecord_append (tcd : Nat → Option Nat)
    (fetch : List Nat → Option GGDealsResponse) (l1 l2 : List (List Nat))
    (game : GamePrice) :
    perRecord tcd fetch (l1 ++ l2) game =
      perRecord tcd fetch l2 (perRecord tcd fetch l1 game) :=
  List.foldl_append ..

theorem any_of_any_take {α : Type} (l : List α) (n : Nat) (p : α → Bool)
    (h : (l.take n).any p = true) : l.any p = true := by
  rw [List.any_eq_true] at h ⊢
  obtain ⟨x, hx, hp⟩ := h
  exact ⟨x, List.mem_of_mem_take hx, hp⟩

theorem stateAt_eq_map (tcd : Nat → Option Nat)
    (fetch : List Nat → Option GGDealsResponse) (chunks : List (List Nat))
    (games : List GamePrice) (i : Nat) :
    stateAt tcd fetch chunks games i =
      games.map (perRecord tcd fetch (chunks.take i)) := by
  rw [stateAt, runFold_eq_map]

/-- C2: a full un-cancelled run of the drain loop over a queue of N
resolved identifiers issues exactly one pricing request per chunk, the
chunks being the successive splices of at most 100 ids; their number is
ceil(N / 100) (written `(N + 99) / 100` in natural division), every
chunk is non-empty with at most 100 ids, and the chunks concatenate
back to the queue in FIFO order. -/
theorem drain_chunking (tcd : Nat → Option Nat)
    (fetch : List Nat → Option GGDealsResponse) (queue : List Nat)
    (games : List GamePrice) :
    (fetchPricesFromQueue tcd fetch queue games).2.filterMap reqOf = chunked queue
    ∧ (chunked queue).length = (queue.length + 99) / 100
    ∧ (chunked queue).flatten = queue
    ∧ (chunked queue).all (fun c => decide (c.length ≤ 100) && !c.isEmpty) = true :=
  ⟨fetch_requests tcd fetch queue games, chunked_length queue,
    chunked_flatten queue, chunked_bounded queue⟩

/-- C3: the event trace of a full un-cancelled run is exactly the
pricing requests for the successive chunks with one 60-second wait
between each two consecutive requests and none after the last: the
chunk requests interspersed with the fixed delay. -/
theorem drain_interChunkDelay (tcd : Nat → Option Nat)
    (fetch : List Nat → Option GGDealsResponse) (queue : List Nat)
    (games : List GamePrice) :
    (fetchPricesFromQueue tcd fetch queue games).2 =
      List.intersperse (DrainEvent.wait 60)
        ((chunked queue).map DrainEvent.request) :=
  fetch_snd_events tcd fetch queue games

/-- C1: for a chunk response with priced data present for a record in
the batch, the stored price is the two-decimal rendering of the minimum
of the two prices when both are present and numeric, of the single one
when exactly one is, and stays absent when neither is; in all three
cases the record's status becomes found. -/
theorem priceAggregator_minimum (tcd : Nat → Option Nat) (resp : GGDealsResponse)
    (batch : List Nat) (games : List GamePrice) (k : Nat) (g : GamePrice)
    (pd : PriceInfo)
    (hg : games[k]? = some g)
    (hmem : batch.contains g.appId = true)
    (hsucc : resp.success = true)
    (hpd : (resp.data.lookup g.appId).join = some pd) :
    ((processChunk tcd (some resp) batch games)[k]?).map
        (fun r => (r.status, r.price)) =
      some (Status.found,
        match pd.currentRetail, pd.currentKeyshops with
        | some r, some k2 => some (toFixed2 (min r k2))
        | some r, none => some (toFixed2 r)
        | none, some k2 => some (toFixed2 k2)
        | none, none => none) := by
  rw [processChunk_eq_map, List.getElem?_map, hg]
  simp only [Option.map_some']
  simp only [chunkStep, hsucc, if_true]
  simp only [updateGameFromData, hmem, if_true, hpd]
  cases pd.currentRetail <;> cases pd.currentKeyshops <;> simp [cheapestOf]

/-- Witness for C1 at the specification's example: retail 9.99 and
keyshop 7.49 store price "7.49" and status found. -/
theorem priceAggregator_minimum_witness :
    ((processChunk (fun _ => none)
        (some ⟨true, [(7, some ⟨some (mkRat 999 100), some (mkRat 749 100), "USD"⟩)]⟩)
        [7]
        [⟨"Half-Life 2", 7, none, "USD", none, Status.pending⟩])[0]?).map
        (fun r => (r.status, r.price)) =
      some (Status.found, some "7.49") := by
  have h := priceAggregator_minimum (fun _ => none)
    ⟨true, [(7, some ⟨some (mkRat 999 100), some (mkRat 749 100), "USD"⟩)]⟩
    [7]
    [⟨"Half-Life 2", 7, none, "USD", none, Status.pending⟩]
    0
    ⟨"Half-Life 2", 7, none, "USD", none, Status.pending⟩
    ⟨some (mkRat 999 100), some (mkRat 749 100), "USD"⟩
    (by rfl) (by decide) rfl (by rfl)
  exact h.trans (by decide)

/-- C4: when a chunk's fetch fails (network error, non-ok HTTP status,
or a payload whose success flag is false), every record whose id is in
the batch is marked error, every other record is unchanged, and the
requests of the whole run are still one per chunk of the queue: the
failed chunk is not retried and the drain continues. -/
theorem chunkFailure_marksError (tcd : Nat → Option Nat)
    (fetch : List Nat → Option GGDealsResponse) (batch : List Nat)
    (queue : List Nat) (games : List GamePrice) (k : Nat) (g : GamePrice)
    (hg : games[k]? = some g)
    (hfail : fetch batch = none ∨
      ∃ resp, fetch batch = some resp ∧ resp.success = false) :
    (processChunk tcd (fetch batch) batch games)[k]? =
      some (if batch.contains g.appId then { g with status := Status.error } else g)
    ∧ (fetchPricesFromQueue tcd fetch queue games).2.filterMap reqOf = chunked queue := by
  refine ⟨?_, fetch_requests tcd fetch queue games⟩
  rcases hfail with hf | ⟨resp, hf, hs⟩
  · rw [hf]
    show (games.map _)[k]? = _
    rw [List.getElem?_map, hg]
    rfl
  · rw [hf]
    show (processChunk tcd (some resp) batch games)[k]? = _
    simp only [processChunk, hs, Bool.false_eq_true, if_false]
    rw [List.getElem?_map, hg]
    rfl

/-- Witness for C4: a failing fetch on a one-id batch marks the single
matching record as error. -/
theorem chunkFailure_marksError_witness :
    (processChunk (fun _ => none) ((fun (_ : List Nat) => none) [3]) [3]
        [⟨"B", 3, none, "USD", none, Status.pending⟩])[0]? =
      some ⟨"B", 3, none, "USD", none, Status.error⟩
    ∧ (fetchPricesFromQueue (fun _ => none) (fun _ => none) []
        [⟨"B", 3, none, "USD", none, Status.pending⟩]).2.filterMap reqOf =
      chunked [] := by
  have h := chunkFailure_marksError (fun _ => none) (fun _ => none) [3] []
    [⟨"B", 3, none, "USD", none, Status.pending⟩] 0
    ⟨"B", 3, none, "USD", none, Status.pending⟩ (by rfl) (Or.inl rfl)
  exact ⟨h.1.trans (by decide), h.2⟩

/-- C5 (amended): on catalogs whose entries all have non-zero ids, the
local resolver behaves exactly as specified (first exact lower-cased
match, then first substring-containment match, else unresolved); the
case-insensitive exact-match example resolves, and the empty catalog
resolves nothing.  (On a zero-id catalog entry the fallback branch of
the code yields `null` instead of the entry's id, see the
counterexample.) -/
theorem findAppId_resolution :
    (∀ (steamApps : List WishlistChecker.SteamApp) (gameName : String),
        (∀ a ∈ steamApps, a.appid ≠ 0) →
        WishlistChecker.findAppId steamApps gameName =
          WishlistChecker.resolveSpec steamApps gameName)
    ∧ WishlistChecker.findAppId [⟨10, "Half-Life 2"⟩] "half-life 2" = some 10
    ∧ (∀ gameName, WishlistChecker.findAppId [] gameName = none) := by
  refine ⟨?_, by decide, fun gameName => rfl⟩
  intro steamApps gameName hnz
  simp only [WishlistChecker.findAppId, WishlistChecker.resolveSpec]
  cases steamApps.find? (fun app =>
      jsToLower app.name == jsTrim (jsToLower gameName)) with
  | some exactMatch => rfl
  | none =>
      cases hf : steamApps.find? (fun app =>
          jsIncludes (jsToLower app.name) (jsTrim (jsToLower gameName)) ||
          jsIncludes (jsTrim (jsToLower gameName)) (jsToLower app.name)) with
      | none => rfl
      | some fuzzyMatch =>
          have hmem : fuzzyMatch ∈ steamApps := List.mem_of_find?_eq_some hf
          simp [hnz fuzzyMatch hmem]

/-- Witness for C5 on a concrete non-zero-id catalog. -/
theorem findAppId_resolution_witness :
    (∀ a ∈ ([⟨10, "Half-Life 2"⟩] : List WishlistChecker.SteamApp), a.appid ≠ 0)
    ∧ WishlistChecker.findAppId [⟨10, "Half-Life 2"⟩] "portal" =
      WishlistChecker.resolveSpec [⟨10, "Half-Life 2"⟩] "portal" :=
  ⟨by decide, findAppId_resolution.1 [⟨10, "Half-Life 2"⟩] "portal" (by decide)⟩

/-- Counterexample to C5 as stated: on the catalog with the single
entry of id 0 and name "a", the input "ab" has a containment match
(that entry), so the claim says id 0 is returned; the code's
`fuzzyMatch?.appid || null` instead yields `null` (unresolved). -/
theorem findAppId_zeroId_counterexample :
    WishlistChecker.findAppId [⟨0, "a"⟩] "ab" = none
    ∧ WishlistChecker.resolveSpec [⟨0, "a"⟩] "ab" = some 0 := by
  decide

/-- C7 (amended): provided the mapping service maps every item to a
non-zero identifier, a price-checker record has id 0 exactly when its
status is not-found at the moment resolution completes, and id 0 is
never enqueued; in the wishlist checker this equivalence holds
unconditionally (and there is no queue).  (A mapped item with
`foreign_id = 0` breaks both parts, see the counterexample.) -/
theorem idZero_iff_notFound :
    (∀ (tcd : Nat → Option Nat) (mappingResult : MapApiResponse),
        (∀ item ∈ mappingResult.items, item.foreign_id ≠ 0) →
        ((buildResults tcd mappingResult).1.all
            (fun r => (r.appId == 0) == (r.status == Status.notFound))) = true
        ∧ ((buildResults tcd mappingResult).2.contains 0) = false)
    ∧ (∀ (steamApps : List WishlistChecker.SteamApp) (names : List String),
        ((WishlistChecker.initialResults steamApps names).all
            (fun r => (r.appId == 0) == (r.status == Status.notFound))) = true) := by
  constructor
  · intro tcd mappingResult hnz
    constructor
    · rw [List.all_eq_true]
      intro r hr
      rcases List.mem_append.mp hr with h | h
      · obtain ⟨item, hit, rfl⟩ := List.mem_map.mp h
        have hne : item.foreign_id ≠ 0 := hnz item hit
        simp [hne]
      · obtain ⟨name, _, rfl⟩ := List.mem_map.mp h
        rfl
    · simpa [buildResults] using hnz
  · intro steamApps names
    rw [List.all_eq_true]
    intro r hr
    obtain ⟨name, _, rfl⟩ := List.mem_map.mp hr
    cases hA : WishlistChecker.findAppId steamApps (jsTrim name) with
    | none => simp [WishlistChecker.initialResults, hA]
    | some i =>
        by_cases hi : i = 0
        · subst hi
          simp [WishlistChecker.initialResults, hA]
        · simp [WishlistChecker.initialResults, hA, hi]

/-- Witness for C7 with one mapped and one failed name. -/
theorem idZero_iff_notFound_witness :
    (∀ item ∈ ({ items := [⟨"G", 7⟩], failedToMap := ["missing"] } : MapApiResponse).items,
        item.foreign_id ≠ 0)
    ∧ ((buildResults (fun _ => none)
          { items := [⟨"G", 7⟩], failedToMap := ["missing"] }).1.all
          (fun r => (r.appId == 0) == (r.status == Status.notFound))) = true
    ∧ ((buildResults (fun _ => none)
          { items := [⟨"G", 7⟩], failedToMap := ["missing"] }).2.contains 0) = false := by
  refine ⟨by decide, ?_, ?_⟩
  · exact (idZero_iff_notFound.1 (fun _ => none)
      { items := [⟨"G", 7⟩], failedToMap := ["missing"] } (by decide)).1
  · exact (idZero_iff_notFound.1 (fun _ => none)
      { items := [⟨"G", 7⟩], failedToMap := ["missing"] } (by decide)).2

/-- Counterexample to C7 as stated: a mapping response whose single
item carries `foreign_id = 0` produces a record with id 0 and status
pending (not not-found), and enqueues the id 0. -/
theorem idZero_enqueued_counterexample :
    ((buildResults (fun _ => none) { items := [⟨"X", 0⟩], failedToMap := [] }).1.map
        (fun r => (r.appId, r.status))) = [(0, Status.pending)]
    ∧ (buildResults (fun _ => none) { items := [⟨"X", 0⟩], failedToMap := [] }).2 = [0] := by
  decide

/-- C8 (amended): the local-catalog variant produces exactly one record
per non-blank input line (duplicates preserved); the delegated variant
produces one record per mapped item plus one per failed name, which
equals the non-blank line count exactly when the mapping service
accounts for each submitted line once. -/
theorem recordCount :
    (∀ (steamApps : List WishlistChecker.SteamApp) (gameNames : String),
        (WishlistChecker.initialResults steamApps
            (WishlistChecker.parseLines gameNames)).length =
          (WishlistChecker.parseLines gameNames).length)
    ∧ (∀ (tcd : Nat → Option Nat) (mappingResult : MapApiResponse),
        (buildResults tcd mappingResult).1.length =
          mappingResult.items.length + mappingResult.failedToMap.length)
    ∧ (∀ (tcd : Nat → Option Nat) (mappingResult : MapApiResponse) (gameNames : String),
        mappingResult.items.length + mappingResult.failedToMap.length =
          (parseNames gameNames).length →
        (buildResults tcd mappingResult).1.length = (parseNames gameNames).length) := by
  refine ⟨?_, ?_, ?_⟩
  · intro steamApps gameNames
    exact List.length_map _ _
  · intro tcd mappingResult
    simp [buildResults]
  · intro tcd mappingResult gameNames h
    rw [← h]
    simp [buildResults]

/-- Witness for C8's delegated-variant conjunct on a two-line input
whose mapping response accounts for both lines. -/
theorem recordCount_witness :
    (({ items := [⟨"A", 3⟩], failedToMap := ["B"] } : MapApiResponse).items.length +
        ({ items := [⟨"A", 3⟩], failedToMap := ["B"] } : MapApiResponse).failedToMap.length =
      (parseNames "A\nB").length)
    ∧ (buildResults (fun _ => none) { items := [⟨"A", 3⟩], failedToMap := ["B"] }).1.length =
      (parseNames "A\nB").length :=
  ⟨by decide, recordCount.2.2 (fun _ => none)
    { items := [⟨"A", 3⟩], failedToMap := ["B"] } "A\nB" (by decide)⟩

/-- Counterexample to C8 as stated: for the one-line input "A", the
(delegated) resolution outcome that maps nothing and reports nothing
failed produces 0 records, not 1. -/
theorem recordCount_counterexample :
    (buildResults (fun _ => none) { items := [], failedToMap := [] }).1.length ≠
      (parseNames "A").length := by
  decide

/-- C9 (amended): each CSV export is the newline-join of a quoted
header line followed by exactly one quoted line per record.  The
price-checker header is Game Name, Price, Currency, Trading Cards,
Status, with "N/A" for an absent price but the empty string for absent
trading cards; the wishlist-checker header is Game Name, On Wishlist,
Date Added, Priority, Status (no Price or Currency columns), with
Yes/No for membership and "N/A" for absent date and priority. -/
theorem generateCSV_shape :
    (∀ games : List GamePrice, generateCSV games =
      jsJoin "\n"
        (csvLine ["Game Name", "Price", "Currency", "Trading Cards", "Status"] ::
          games.map (fun game =>
            csvLine [game.name, jsStrOr game.price "N/A", game.currency,
              jsStrOr (game.tradingCards.map jsNatStr) "", statusText game.status])))
    ∧ (∀ games : List WishlistChecker.GameWishlistStatus,
        WishlistChecker.generateCSV games =
      jsJoin "\n"
        (csvLine ["Game Name", "On Wishlist", "Date Added", "Priority", "Status"] ::
          games.map (fun game =>
            csvLine [game.name, if game.isWishlisted then "Yes" else "No",
              jsStrOr game.dateAdded "N/A", jsStrOr (game.priority.map jsNatStr) "N/A",
              statusText game.status]))) := by
  constructor
  · intro games
    simp only [generateCSV, csvLine, List.map_cons, List.map_map]
    rfl
  · intro games
    simp only [WishlistChecker.generateCSV, csvLine, List.map_cons, List.map_map]
    rfl

/-- Counterexample to C9 as stated: a record with no trading-cards
entry is exported with an empty Trading Cards cell, not "N/A", and the
wishlist-checker header row has no Price or Currency column at all. -/
theorem generateCSV_counterexample :
    generateCSV [⟨"G", 1, none, "USD", none, Status.pending⟩] =
      "\"Game Name\",\"Price\",\"Currency\",\"Trading Cards\",\"Status\"\n\"G\",\"N/A\",\"USD\",\"\",\"pending\""
    ∧ generateCSV [⟨"G", 1, none, "USD", none, Status.pending⟩] ≠
      "\"Game Name\",\"Price\",\"Currency\",\"Trading Cards\",\"Status\"\n\"G\",\"N/A\",\"USD\",\"N/A\",\"pending\""
    ∧ WishlistChecker.generateCSV [] =
      "\"Game Name\",\"On Wishlist\",\"Date Added\",\"Priority\",\"Status\"" := by
  refine ⟨by decide, by decide, by decide⟩

/-- C10: after a successful wishlist fetch, every record with a
non-zero resolved id ends with status found whether or not the id is on
the wishlist; membership is recorded only in isWishlisted, and
dateAdded and priority are only ever set for wishlist members; a record
with id 0 stays not-found and unwishlisted. -/
theorem wishlist_found_regardless (formatDate : Nat → String)
    (steamApps : List WishlistChecker.SteamApp) (gameNames : String)
    (wishlistItems : List WishlistChecker.WishlistItem) (k : Nat)
    (g : WishlistChecker.GameWishlistStatus)
    (hg : (WishlistChecker.startProcessingResult formatDate steamApps gameNames
        wishlistItems)[k]? = some g) :
    (((g.appId == 0) && (g.status == Status.notFound) && !g.isWishlisted ||
        (g.appId != 0) && (g.status == Status.found))
      && (g.isWishlisted ==
        ((g.appId != 0) &&
          (wishlistItems.map (fun item => item.appid)).contains g.appId))
      && ((wishlistItems.map (fun item => item.appid)).contains g.appId ||
        (g.dateAdded.isNone && g.priority.isNone))) = true := by
  simp only [WishlistChecker.startProcessingResult, WishlistChecker.updateWishlist,
    WishlistChecker.initialResults, List.getElem?_map] at hg
  cases hN : (WishlistChecker.parseLines gameNames)[k]? with
  | none =>
      rw [hN] at hg
      simp at hg
  | some name =>
      rw [hN] at hg
      simp only [Option.map_some', Option.some.injEq] at hg
      subst hg
      cases hA : WishlistChecker.findAppId steamApps (jsTrim name) with
      | none =>
          cases hc : (wishlistItems.map (fun item => item.appid)).contains 0 with
          | true =>
              have hex : ∃ a ∈ wishlistItems, a.appid = 0 := by simpa using hc
              simp [hA, hex]
          | false =>
              have hex : ¬∃ a ∈ wishlistItems, a.appid = 0 := by simpa using hc
              simp [hA, hex]
      | some i =>
          by_cases hi : i = 0
          · subst hi
            cases hc : (wishlistItems.map (fun item => item.appid)).contains 0 with
            | true =>
                have hex : ∃ a ∈ wishlistItems, a.appid = 0 := by simpa using hc
                simp [hA, hex]
            | false =>
                have hex : ¬∃ a ∈ wishlistItems, a.appid = 0 := by simpa using hc
                simp [hA, hex]
          · cases hc : (wishlistItems.map (fun item => item.appid)).contains i with
            | true =>
                have hex : ∃ a ∈ wishlistItems, a.appid = i := by simpa using hc
                cases hf : wishlistItems.find? (fun item => item.appid == i) with
                | some wishlistItem => simp [hA, hi, hf, hex]
                | none => simp [hA, hi, hf, hex]
            | false =>
                have hex : ¬∃ a ∈ wishlistItems, a.appid = i := by simpa using hc
                simp [hA, hi, hex]

/-- Witness for C10: one resolved game absent from the wishlist still
ends found and unwishlisted. -/
theorem wishlist_found_regardless_witness :
    ((WishlistChecker.startProcessingResult (fun _ => "d")
        [⟨10, "Half-Life 2"⟩] "half-life 2" [⟨999, 1, 5⟩])[0]? =
      some ⟨"half-life 2", 10, false, none, none, Status.found⟩)
    ∧ ((((10 : Nat) == 0) && (Status.found == Status.notFound) && !false ||
        ((10 : Nat) != 0) && (Status.found == Status.found))
      && (false ==
        (((10 : Nat) != 0) &&
          (([⟨999, 1, 5⟩] : List WishlistChecker.WishlistItem).map
            (fun item => item.appid)).contains 10))
      && ((([⟨999, 1, 5⟩] : List WishlistChecker.WishlistItem).map
            (fun item => item.appid)).contains 10 ||
        ((none : Option String).isNone && (none : Option Nat).isNone))) = true := by
  constructor
  · decide
  · have h := wishlist_found_regardless (fun _ => "d") [⟨10, "Half-Life 2"⟩]
      "half-life 2" [⟨999, 1, 5⟩] 0
      ⟨"half-life 2", 10, false, none, none, Status.found⟩ (by decide)
    exact h

/-- C6 (amended): along the states of a drain-loop run, a record either
stays exactly as it was, or it was touched by a chunk containing its id
processed at-or-after the earlier state and its status is then one of
found, not-found, error (never pending) — so no record ever re-enters
pending, and a record's terminal status is only reassigned when its id
occurs in a further chunk (possible when duplicate ids span chunks).
The final state is the result of the un-cancelled loop.  In the
wishlist checker the single merge pass leaves a record unchanged or
assigns found. -/
theorem status_forward :
    (∀ (tcd : Nat → Option Nat) (fetch : List Nat → Option GGDealsResponse)
        (chunks : List (List Nat)) (games : List GamePrice) (i j k : Nat)
        (gi gj : GamePrice),
        i ≤ j →
        (stateAt tcd fetch chunks games i)[k]? = some gi →
        (stateAt tcd fetch chunks games j)[k]? = some gj →
        gj = gi ∨ (gj.status ≠ Status.pending ∧
          (chunks.drop i).any (fun c => c.contains gi.appId) = true))
    ∧ (∀ (tcd : Nat → Option Nat) (fetch : List Nat → Option GGDealsResponse)
        (queue : List Nat) (games : List GamePrice),
        stateAt tcd fetch (chunked queue) games (chunked queue).length =
          (fetchPricesFromQueue tcd fetch queue games).1)
    ∧ (∀ (formatDate : Nat → String)
        (wishlistItems : List WishlistChecker.WishlistItem)
        (games : List WishlistChecker.GameWishlistStatus) (k : Nat)
        (g : WishlistChecker.GameWishlistStatus),
        (WishlistChecker.updateWishlist formatDate wishlistItems games)[k]? = some g →
        g.status = Status.pending → games[k]? = some g) := by
  refine ⟨?_, ?_, ?_⟩
  · intro tcd fetch chunks games i j k gi gj hij hi hj
    rw [stateAt_eq_map, List.getElem?_map] at hi hj
    cases hG : games[k]? with
    | none =>
        rw [hG] at hi
        simp at hi
    | some g0 =>
        rw [hG] at hi hj
        simp only [Option.map_some', Option.some.injEq] at hi hj
        have hsplit : chunks.take j = chunks.take i ++ (chunks.drop i).take (j - i) := by
          have hadd : i + (j - i) = j := by omega
          rw [← hadd, List.take_add, hadd]
        rw [hsplit, perRecord_append] at hj
        rw [hi] at hj
        rcases perRecord_cases tcd fetch ((chunks.drop i).take (j - i)) gi with h1 | ⟨h1, h2⟩
        · exact Or.inl (hj ▸ h1)
        · exact Or.inr ⟨hj ▸ h1, any_of_any_take _ _ _ h2⟩
  · intro tcd fetch queue games
    exact stateAt_final tcd fetch queue games
  · intro formatDate wishlistItems games k g hg hpend
    rw [WishlistChecker.updateWishlist, List.getElem?_map] at hg
    cases hG : games[k]? with
    | none =>
        rw [hG] at hg
        simp at hg
    | some g0 =>
        rw [hG] at hg
        simp only [Option.map_some', Option.some.injEq] at hg
        by_cases hb : (g0.appId != 0 &&
            (wishlistItems.map (fun item => item.appid)).contains g0.appId) = true
        · exfalso
          rw [if_pos hb] at hg
          cases hf : wishlistItems.find? (fun item => item.appid == g0.appId) with
          | some wishlistItem =>
              rw [hf] at hg
              rw [← hg] at hpend
              exact absurd hpend (by simp)
          | none =>
              rw [hf] at hg
              rw [← hg] at hpend
              exact absurd hpend (by simp)
        · rw [if_neg hb] at hg
          by_cases hb2 : (g0.appId != 0) = true
          · exfalso
            rw [if_pos hb2] at hg
            rw [← hg] at hpend
            exact absurd hpend (by simp)
          · rw [if_neg hb2] at hg
            exact congrArg some hg

/-- Witness for C6 at a one-chunk run: the single pending record is
marked error by the failing chunk that contains its id. -/
theorem status_forward_witness :
    ((0 : Nat) ≤ 1)
    ∧ (stateAt (fun _ => none) (fun _ => none) [[5]]
        [⟨"A", 5, none, "USD", none, Status.pending⟩] 0)[0]? =
      some ⟨"A", 5, none, "USD", none, Status.pending⟩
    ∧ (stateAt (fun _ => none) (fun _ => none) [[5]]
        [⟨"A", 5, none, "USD", none, Status.pending⟩] 1)[0]? =
      some ⟨"A", 5, none, "USD", none, Status.error⟩
    ∧ (((⟨"A", 5, none, "USD", none, Status.error⟩ : GamePrice) =
          ⟨"A", 5, none, "USD", none, Status.pending⟩)
        ∨ ((⟨"A", 5, none, "USD", none, Status.error⟩ : GamePrice).status ≠ Status.pending
          ∧ (([[5]] : List (List Nat)).drop 0).any
              (fun c =>
                c.contains (⟨"A", 5, none, "USD", none,
                  Status.pending⟩ : GamePrice).appId) = true)) :=
  ⟨by decide, by decide, by decide,
    status_forward.1 (fun _ => none) (fun _ => none) [[5]]
      [⟨"A", 5, none, "USD", none, Status.pending⟩] 0 1 0
      ⟨"A", 5, none, "USD", none, Status.pending⟩
      ⟨"A", 5, none, "USD", none, Status.error⟩
      (by decide) (by decide) (by decide)⟩

/-- Counterexample to C6 as stated: a reachable run in which a record's
status is reassigned after leaving pending.  The mapping response has
101 items, the first and the last resolving to the same id 1, so id 1
occurs in both chunks of the queue.  The first chunk's fetch succeeds
with priced data for id 1, marking the first record found; the second
chunk's fetch fails, re-marking the same record error. -/
theorem status_forward_counterexample :
    ((stateAt (fun _ => none)
        (fun c => if c.length ≤ 1 then none
          else some ⟨true, [(1, some ⟨some 5, none, "USD"⟩)]⟩)
        (chunked (buildResults (fun _ => none)
          ⟨⟨"G", 1⟩ :: (List.replicate 99 ⟨"X", 2⟩ ++ [⟨"G2", 1⟩]), []⟩).2)
        (buildResults (fun _ => none)
          ⟨⟨"G", 1⟩ :: (List.replicate 99 ⟨"X", 2⟩ ++ [⟨"G2", 1⟩]), []⟩).1
        1).head?).map (fun r => r.status) = some Status.found
    ∧ ((stateAt (fun _ => none)
        (fun c => if c.length ≤ 1 then none
          else some ⟨true, [(1, some ⟨some 5, none, "USD"⟩)]⟩)
        (chunked (buildResults (fun _ => none)
          ⟨⟨"G", 1⟩ :: (List.replicate 99 ⟨"X", 2⟩ ++ [⟨"G2", 1⟩]), []⟩).2)
        (buildResults (fun _ => none)
          ⟨⟨"G", 1⟩ :: (List.replicate 99 ⟨"X", 2⟩ ++ [⟨"G2", 1⟩]), []⟩).1
        2).head?).map (fun r => r.status) = some Status.error := by
  have hqueue : (buildResults (fun _ => none)
      ⟨⟨"G", 1⟩ :: (List.replicate 99 ⟨"X", 2⟩ ++ [⟨"G2", 1⟩]), []⟩).2 =
      1 :: (List.replicate 99 2 ++ [1]) := by decide
  have h1 : ((1 : Nat) :: (List.replicate 99 2 ++ [1])).take 100 =
      1 :: List.replicate 99 2 := by decide
  have h2 : ((1 : Nat) :: (List.replicate 99 2 ++ [1])).drop 100 = [1] := by decide
  have h3 : ([1] : List Nat).take 100 = [1] := by decide
  have h4 : ([1] : List Nat).drop 100 = [] := by decide
  have hchunks : chunked ((1 : Nat) :: (List.replicate 99 2 ++ [1])) =
      [1 :: List.replicate 99 2, [1]] := by
    rw [chunked_cons (List.cons_ne_nil _ _), h1, h2,
      chunked_cons (List.cons_ne_nil _ _), h3, h4, chunked_nil]
  rw [hqueue, hchunks]
  exact ⟨by decide, by decide⟩
